import Mathlib

/-!
Verification of the flow-js LOD subsystem: the `loadGLTF` loader and the
`updateManager` LOD-switch tracker from `src/library/core/loader.js`.

The loader and the registry/update loop are translated directly from the
source.  The per-node evaluation primitives (`THREE.LOD#update`,
`THREE.LOD#getCurrentLevel`, `THREE.LOD#addLevel`) are three.js library
code that is not part of this repository; they are modelled from the spec
(§3, §4.2, §7), as marked on each definition.
-/

deriving instance DecidableEq for Except

namespace FlowJS

/-- A parsed GLTF asset as produced by the fetch/parse collaborator
(`GLTFLoader.loadAsync`); `scene` is a handle to its root scene-graph node. -/
structure GLTF where
  scene : String
deriving DecidableEq, Repr

/-- The fetch environment: the outcome (`GLTFLoader.loadAsync`, an external
collaborator) of fetching and parsing each URL. -/
def FetchEnv : Type := String → Except String GLTF

/-- One LOD level descriptor, as in `DEFAULT_LOD_LEVELS` of the source:
only a distance threshold. -/
structure LodLevel where
  distance : ℤ
deriving DecidableEq, Repr

/-- `DEFAULT_LOD_LEVELS` from `loader.js`. -/
def DEFAULT_LOD_LEVELS : List LodLevel := [⟨0⟩, ⟨10⟩, ⟨20⟩]

/-- A composite multi-tier node (`THREE.LOD`).  `levels` holds
(detail-scene, distance-threshold) pairs.  `internalLevel` is three.js's
private `_currentLevel` field (initially `0`); `currentLevel` is the
`userData.currentLevel` slot written by the update manager (initially
absent/undefined).  `worldPos` models the node's world position along the
viewing axis and `malformed` marks a node whose evaluation raises
(both are collaborator state, see the spec-modelled definitions below). -/
structure LOD where
  id : Nat := 0
  levels : List (String × ℤ) := []
  scale : ℤ × ℤ × ℤ := (1, 1, 1)
  position : ℤ × ℤ × ℤ := (0, 0, 0)
  rotation : ℤ × ℤ × ℤ := (0, 0, 0)
  worldPos : ℤ := 0
  internalLevel : Nat := 0
  currentLevel : Option Int := none
  malformed : Bool := false
deriving DecidableEq, Repr

/-- Sorted insertion of a level, before the first strictly greater
threshold. -/
def insertLevel : List (String × ℤ) → String → ℤ → List (String × ℤ)
  | [], s, d => [(s, d)]
  | p :: rest, s, d => if d < p.2 then (s, d) :: p :: rest else p :: insertLevel rest s d

/-- Modelled from the spec: `THREE.LOD#addLevel` (three.js library code, not
in this repository) inserts a detail node at its distance threshold, keeping
the level list sorted by ascending threshold (spec §3 invariant). -/
def addLevel (l : LOD) (scene : String) (d : ℤ) : LOD :=
  { l with levels := insertLevel l.levels scene d }

/-- Does the character list match the regex `_LOD\d+\.glb` exactly
(anchored on both sides)? -/
def lodSuffixMatch : List Char → Bool
  | '_' :: 'L' :: 'O' :: 'D' :: rest =>
      let ds := rest.takeWhile Char.isDigit
      decide (ds ≠ []) && decide (rest.dropWhile Char.isDigit = ['.', 'g', 'l', 'b'])
  | _ => false

/-- The prefix of the string before the leftmost end-anchored match of
`_LOD\d+\.glb`, or the whole string when there is no match. -/
def stripLodSuffixAux : List Char → List Char
  | [] => []
  | c :: rest => if lodSuffixMatch (c :: rest) then [] else c :: stripLodSuffixAux rest

/-- `url.replace(/_LOD\d+\.glb$/, "")` from the source: remove a trailing
`_LOD<digits>.glb` suffix if present, otherwise return the URL unchanged. -/
def stripLodSuffix (url : String) : String :=
  String.mk (stripLodSuffixAux url.toList)

/-- `lodBaseName || url.replace(/_LOD\d+\.glb$/, "")`: an absent (or empty,
since `||` tests JS falsiness) `lodBaseName` falls back to suffix
stripping. -/
def deriveBaseName (url : String) (lodBaseName : Option String) : String :=
  match lodBaseName with
  | some b => if b.isEmpty then stripLodSuffix url else b
  | none => stripLodSuffix url

/-- The URL of tier `i`: `` `${baseName}_LOD${i}.glb` ``. -/
def tierFile (baseName : String) (i : Nat) : String :=
  baseName ++ "_LOD" ++ toString i ++ ".glb"

/-- The options bag of `loadGLTF` with the source's defaults. -/
structure LoadOptions where
  scale : ℤ × ℤ × ℤ := (1, 1, 1)
  position : ℤ × ℤ × ℤ := (0, 0, 0)
  rotation : ℤ × ℤ × ℤ := (0, 0, 0)
  useCameraFromFile : Bool := true
  lod : Bool := false
  lodBaseName : Option String := none
  lodLevels : List LodLevel := DEFAULT_LOD_LEVELS

/-- A plain scene object with its transform applied (the non-LOD result
model). -/
structure Object3D where
  scene : String
  scale : ℤ × ℤ × ℤ
  position : ℤ × ℤ × ℤ
  rotation : ℤ × ℤ × ℤ
deriving DecidableEq, Repr

/-- The value `loadGLTF` resolves with: `{ model, gltf }` on the plain path,
`{ model, gltfs }` on the LOD path. -/
inductive LoadResult where
  | single (model : Object3D) (gltf : GLTF) : LoadResult
  | lodModel (model : LOD) (gltfs : List GLTF) : LoadResult
deriving DecidableEq, Repr

/-- `Promise.all` over already-issued fetches: resolves with all values in
order when every fetch resolved, rejects when any fetch rejected. -/
def promiseAll : List (Except String GLTF) → Except String (List GLTF)
  | [] => .ok []
  | .error e :: _ => .error e
  | .ok g :: rest =>
    match promiseAll rest with
    | .error e => .error e
    | .ok gs => .ok (g :: gs)

/-- `lodFiles` from the source: one tier URL per entry of `lodLevels`,
indexed from 0. -/
def lodFilesOf (url : String) (opts : LoadOptions) : List String :=
  (List.range opts.lodLevels.length).map (tierFile (deriveBaseName url opts.lodBaseName))

/-- The assembly step of the LOD path: `new THREE.LOD()`, one `addLevel`
per fetched tier at its configured threshold, then the transform. -/
def buildLodObject (opts : LoadOptions) (gltfs : List GLTF) : LOD :=
  let l0 : LOD := {}
  let l1 := (List.zip gltfs opts.lodLevels).foldl
    (fun l p => addLevel l p.1.scene p.2.distance) l0
  { l1 with scale := opts.scale, position := opts.position, rotation := opts.rotation }

/-- The active `loadGLTF` of `loader.js` (lines 149-190): plain path when
`lod` is false; otherwise derive the base name, build every tier URL, fetch
them all with `Promise.all`, and assemble a `THREE.LOD` from the results.
The function performs no validation of `lodLevels` and never touches
`updateManager`. -/
def loadGLTF (url : String) (opts : LoadOptions) (env : FetchEnv) : Except String LoadResult :=
  if opts.lod = false then
    match env url with
    | .error e => .error e
    | .ok gltf =>
      .ok (.single
        { scene := gltf.scene, scale := opts.scale,
          position := opts.position, rotation := opts.rotation } gltf)
  else
    match promiseAll ((lodFilesOf url opts).map env) with
    | .error e => .error e
    | .ok gltfs => .ok (.lodModel (buildLodObject opts gltfs) gltfs)

/-- The body of the source `loadGLTF` contains no reference to
`updateManager`; this wrapper makes the registry effect of a load explicit
by pairing the result with the registry as the call leaves it. -/
def loadGLTFWithRegistry (url : String) (opts : LoadOptions) (env : FetchEnv)
    (lods : List LOD) : Except String LoadResult × List LOD :=
  (loadGLTF url opts env, lods)

/-- The effect of `lod.userData.currentLevel = -1` on the node with the
given identity (a reference-mutation, so it reaches the registry's entry). -/
def resetLevel (nid : Nat) (m : LOD) : LOD :=
  if m.id = nid then { m with currentLevel := some (-1) } else m

/-- `updateManager.add`: `this.lods.add(lod); lod.userData.currentLevel = -1`.
The registry is a JS `Set` (insertion order, reference identity — modelled
by `id`); the `currentLevel` write mutates the node itself, so it lands on
the registered entry whether or not it was already present. -/
def updateManagerAdd (lods : List LOD) (lod : LOD) : List LOD :=
  if lods.any (fun n => decide (n.id = lod.id)) then
    lods.map (resetLevel lod.id)
  else
    lods ++ [{ lod with currentLevel := some (-1) }]

/-- `updateManager.remove`: `this.lods.delete(lod)`. -/
def updateManagerRemove (lods : List LOD) (lod : LOD) : List LOD :=
  lods.filter (fun n => decide (¬ n.id = lod.id))

/-- The error a malformed node's evaluation raises (spec §7,
TrackerEvaluationError). -/
inductive TrackerError where
  | evaluationError : TrackerError
deriving DecidableEq, Repr

/-- Modelled from the spec: the distance from the viewer to the node's world
position (§4.2 step a); the source delegates this to three.js camera/node
matrices, which are not part of this repository.  Positions are taken along
a single axis. -/
def viewerDistance (cam : ℤ) (n : LOD) : ℤ :=
  if cam - n.worldPos < 0 then n.worldPos - cam else cam - n.worldPos

/-- Modelled from the spec: the distance-banded selection of §4.2 step b as
implemented by `THREE.LOD#update` (three.js, not in this repository): the
last level by ascending threshold whose threshold is ≤ the distance; the
first level when the viewer is closer than every threshold. -/
def selectLevel (thresholds : List ℤ) (d : ℤ) : Nat :=
  ((thresholds.drop 1).takeWhile (fun t => decide (t ≤ d))).length

/-- Modelled from the spec: `THREE.LOD#update` (three.js, not in this
repository).  Evaluating a malformed node raises (§7); otherwise, with more
than one level, it recomputes the active level from the viewer distance;
with at most one level it does nothing. -/
def lodUpdate (cam : ℤ) (n : LOD) : Except TrackerError LOD :=
  if n.malformed then .error .evaluationError
  else if 1 < n.levels.length then
    .ok { n with internalLevel := selectLevel (n.levels.map Prod.snd) (viewerDistance cam n) }
  else .ok n

/-- Modelled from the spec: `THREE.LOD#getCurrentLevel` (three.js, not in
this repository) returns the index of the active level. -/
def lodGetCurrentLevel (n : LOD) : Nat := n.internalLevel

/-- One transition notification of the update loop: the console log line
`LOD SWITCHED!` with mesh id, previous and new level. -/
structure LodSwitch where
  meshId : Nat
  prevLevel : Option Int
  newLevel : Nat
deriving DecidableEq, Repr

/-- The loop body of `updateManager.update` for one node: read
`userData.currentLevel`, run `lod.update(camera)` (which may raise), read
`lod.getCurrentLevel()`, and on a strict change log a switch and store the
new level. -/
def updateStep (cam : ℤ) (lod : LOD) : Except TrackerError (LOD × List LodSwitch) :=
  let prevLevel := lod.currentLevel
  match lodUpdate cam lod with
  | .error e => .error e
  | .ok n =>
    let currentLevel := lodGetCurrentLevel n
    if some ((currentLevel : Int)) ≠ prevLevel then
      .ok ({ n with currentLevel := some ((currentLevel : Int)) }, [⟨lod.id, prevLevel, currentLevel⟩])
    else
      .ok (n, [])

/-- `updateManager.update(camera)`: the `for (const lod of this.lods)` loop,
which has no try/catch.  Returns the registry contents after the call, the
emitted switch notifications, and `some e` when an exception escaped the
loop — in which case the nodes after the raising one keep their state,
having never been evaluated. -/
def updateManagerUpdate (cam : ℤ) : List LOD → List LOD × List LodSwitch × Option TrackerError
  | [] => ([], [], none)
  | lod :: rest =>
    match updateStep cam lod with
    | .error e => (lod :: rest, [], some e)
    | .ok (n, switches) =>
      let r := updateManagerUpdate cam rest
      (n :: r.1, switches ++ r.2.1, r.2.2)

/-! Concrete fetch environments and nodes used by the witnesses and
counterexamples below. -/

/-- Fetch outcomes where the lowest tier `ship_LOD2.glb` (and `ship_LOD0.glb`)
resolve but `ship_LOD1.glb` rejects. -/
def shipEnv : FetchEnv := fun url =>
  if url = "ship_LOD0.glb" then .ok ⟨"s0"⟩
  else if url = "ship_LOD2.glb" then .ok ⟨"s2"⟩
  else .error "404"

/-- Fetch outcomes where every tier of base `car` resolves. -/
def carEnv : FetchEnv := fun url =>
  if url = "car_LOD0.glb" then .ok ⟨"c0"⟩
  else if url = "car_LOD1.glb" then .ok ⟨"c1"⟩
  else if url = "car_LOD2.glb" then .ok ⟨"c2"⟩
  else .error "404"

/-- Fetch outcomes where the middle tier of base `boat` rejects and the other
two resolve. -/
def boatEnv : FetchEnv := fun url =>
  if url = "boat_LOD0.glb" then .ok ⟨"b0"⟩
  else if url = "boat_LOD2.glb" then .ok ⟨"b2"⟩
  else .error "410"

/-- Fetch outcomes where every fetch rejects. -/
def envNone : FetchEnv := fun _ => .error "404"

/-- A well-formed registered node with the default thresholds. -/
def nodeA : LOD := { id := 7, levels := [("a", 0), ("b", 10), ("c", 20)] }

/-- A malformed registered node: evaluating it raises. -/
def badNode : LOD := { id := 1, levels := [("a", 0), ("b", 10)], malformed := true }

/-- A second well-formed node, registered after `badNode`. -/
def nodeB : LOD := { id := 8, levels := [("x", 0), ("y", 10)] }

/-- A node whose thresholds all exceed the witness viewer distance. -/
def farNode : LOD := { id := 9, levels := [("x", 200), ("y", 300)] }

/-- `nodeA` after one update at viewer distance 15: level 1 active and
recorded. -/
def nodeA1 : LOD :=
  { id := 7, levels := [("a", 0), ("b", 10), ("c", 20)],
    internalLevel := 1, currentLevel := some 1 }

/-! Lemmas about the loader. -/

theorem promiseAll_ok_exists (rs : List (Except String GLTF))
    (h : ∀ r ∈ rs, ∃ g, r = .ok g) :
    ∃ vs, promiseAll rs = .ok vs ∧ rs = List.map Except.ok vs := by
  induction rs with
  | nil => exact ⟨[], rfl, rfl⟩
  | cons r rest ih =>
    obtain ⟨g, hg⟩ := h r (List.mem_cons_self _ _)
    obtain ⟨vs, hvs, hrs⟩ := ih (fun x hx => h x (List.mem_cons_of_mem _ hx))
    subst hg
    exact ⟨g :: vs, by simp [promiseAll, hvs], by simp [hrs]⟩

theorem promiseAll_error_of_mem (rs : List (Except String GLTF)) (e : String)
    (h : Except.error e ∈ rs) : ∃ e', promiseAll rs = .error e' := by
  induction rs with
  | nil => simp at h
  | cons r rest ih =>
    rcases List.mem_cons.mp h with h1 | h2
    · exact ⟨e, by simp [promiseAll, ← h1]⟩
    · obtain ⟨e', he'⟩ := ih h2
      cases r with
      | error e2 => exact ⟨e2, by simp [promiseAll]⟩
      | ok g => exact ⟨e', by simp [promiseAll, he']⟩

theorem promiseAll_ok_map (rs : List (Except String GLTF)) (vs : List GLTF)
    (h : promiseAll rs = .ok vs) : rs = List.map Except.ok vs := by
  induction rs generalizing vs with
  | nil =>
    simp only [promiseAll] at h
    cases h
    rfl
  | cons r rest ih =>
    cases r with
    | error e => simp [promiseAll] at h
    | ok g =>
      cases hrest : promiseAll rest with
      | error e => rw [promiseAll, hrest] at h; cases h
      | ok gs =>
        rw [promiseAll, hrest] at h
        cases h
        simp [ih gs hrest]

theorem loadGLTF_lod (url : String) (opts : LoadOptions) (env : FetchEnv)
    (h : opts.lod = true) :
    loadGLTF url opts env =
      match promiseAll ((lodFilesOf url opts).map env) with
      | .error e => .error e
      | .ok gltfs => .ok (.lodModel (buildLodObject opts gltfs) gltfs) := by
  simp [loadGLTF, h]

theorem lodFilesOf_length (url : String) (opts : LoadOptions) :
    (lodFilesOf url opts).length = opts.lodLevels.length := by
  simp [lodFilesOf]

theorem tierFile_mem_lodFilesOf (url : String) (opts : LoadOptions) (i : Nat)
    (hi : i < opts.lodLevels.length) :
    tierFile (deriveBaseName url opts.lodBaseName) i ∈ lodFilesOf url opts := by
  exact List.mem_map_of_mem _ (List.mem_range.mpr hi)

theorem env_ok_of_map_ok {files : List String} {env : FetchEnv} {gltfs : List GLTF}
    (h : files.map env = gltfs.map Except.ok) (f : String) (hf : f ∈ files) :
    ∃ g, env f = .ok g := by
  have hm : env f ∈ files.map env := List.mem_map_of_mem env hf
  rw [h] at hm
  obtain ⟨g, _, hg⟩ := List.mem_map.mp hm
  exact ⟨g, hg.symm⟩

theorem mem_insertLevel_self (lv : List (String × ℤ)) (s : String) (d : ℤ) :
    (s, d) ∈ insertLevel lv s d := by
  induction lv with
  | nil => simp [insertLevel]
  | cons p rest ih =>
    rw [insertLevel]
    split
    · exact List.mem_cons_self _ _
    · exact List.mem_cons_of_mem _ ih

theorem mem_insertLevel_of_mem {lv : List (String × ℤ)} {x : String × ℤ}
    (s : String) (d : ℤ) (h : x ∈ lv) : x ∈ insertLevel lv s d := by
  induction lv with
  | nil => simp at h
  | cons p rest ih =>
    rw [insertLevel]
    split
    · exact List.mem_cons_of_mem _ h
    · rcases List.mem_cons.mp h with h1 | h2
      · exact h1 ▸ List.mem_cons_self _ _
      · exact List.mem_cons_of_mem _ (ih h2)

theorem insertLevel_append {lv : List (String × ℤ)} {d : ℤ} (s : String)
    (h : ∀ q ∈ lv, q.2 ≤ d) : insertLevel lv s d = lv ++ [(s, d)] := by
  induction lv with
  | nil => rfl
  | cons p rest ih =>
    rw [insertLevel, if_neg, ih (fun q hq => h q (List.mem_cons_of_mem _ hq))]
    · rfl
    · exact not_lt.mpr (h p (List.mem_cons_self _ _))

theorem foldl_addLevel_mono (pairs : List (GLTF × LodLevel)) (l : LOD)
    (x : String × ℤ) (h : x ∈ l.levels) :
    x ∈ (pairs.foldl (fun l p => addLevel l p.1.scene p.2.distance) l).levels := by
  induction pairs generalizing l with
  | nil => exact h
  | cons p ps ih => exact ih _ (mem_insertLevel_of_mem _ _ h)

theorem foldl_addLevel_mem (pairs : List (GLTF × LodLevel)) (l : LOD)
    (p : GLTF × LodLevel) (hp : p ∈ pairs) :
    (p.1.scene, p.2.distance) ∈
      (pairs.foldl (fun l p => addLevel l p.1.scene p.2.distance) l).levels := by
  induction pairs generalizing l with
  | nil => simp at hp
  | cons q ps ih =>
    rcases List.mem_cons.mp hp with h1 | h2
    · subst h1
      exact foldl_addLevel_mono ps _ _ (mem_insertLevel_self _ _ _)
    · exact ih _ h2

theorem foldl_addLevel_append (pairs : List (GLTF × LodLevel)) (l : LOD)
    (hacc : ∀ q ∈ l.levels, ∀ p ∈ pairs, q.2 ≤ p.2.distance)
    (hsort : List.Pairwise (fun p q : GLTF × LodLevel => p.2.distance ≤ q.2.distance) pairs) :
    (pairs.foldl (fun l p => addLevel l p.1.scene p.2.distance) l).levels =
      l.levels ++ pairs.map (fun p => (p.1.scene, p.2.distance)) := by
  induction pairs generalizing l with
  | nil => simp
  | cons p ps ih =>
    have hstep : (addLevel l p.1.scene p.2.distance).levels = l.levels ++ [(p.1.scene, p.2.distance)] := by
      exact insertLevel_append _ (fun q hq => hacc q hq p (List.mem_cons_self _ _))
    rw [List.foldl_cons, ih (addLevel l p.1.scene p.2.distance), hstep]
    · simp
    · intro q hq r hr
      rw [hstep] at hq
      rcases List.mem_append.mp hq with h1 | h2
      · exact hacc q h1 r (List.mem_cons_of_mem _ hr)
      · have : q = (p.1.scene, p.2.distance) := by simpa using h2
        subst this
        exact (List.pairwise_cons.mp hsort).1 r hr
    · exact (List.pairwise_cons.mp hsort).2

theorem buildLodObject_levels_eq (opts : LoadOptions) (gltfs : List GLTF)
    (hlen : gltfs.length = opts.lodLevels.length)
    (hsort : List.Pairwise (· ≤ ·) (opts.lodLevels.map LodLevel.distance)) :
    (buildLodObject opts gltfs).levels =
      (List.zip gltfs opts.lodLevels).map (fun p => (p.1.scene, p.2.distance)) := by
  have hzip : (List.zip gltfs opts.lodLevels).map Prod.snd = opts.lodLevels := by
    exact List.map_snd_zip _ _ (le_of_eq hlen.symm)
  have hpair : List.Pairwise (fun p q : GLTF × LodLevel => p.2.distance ≤ q.2.distance)
      (List.zip gltfs opts.lodLevels) := by
    have h1 : List.Pairwise (fun a b : LodLevel => a.distance ≤ b.distance) opts.lodLevels :=
      (List.pairwise_map.mp hsort)
    have h2 : List.Pairwise (fun a b : LodLevel => a.distance ≤ b.distance)
        ((List.zip gltfs opts.lodLevels).map Prod.snd) := by
      rw [hzip]; exact h1
    rw [List.pairwise_map] at h2
    exact h2
  unfold buildLodObject
  simp only []
  rw [foldl_addLevel_append _ _ (by intro q hq; simp at hq) hpair]
  simp

theorem buildLodObject_mem (opts : LoadOptions) (gltfs : List GLTF)
    (p : GLTF × LodLevel) (hp : p ∈ List.zip gltfs opts.lodLevels) :
    (p.1.scene, p.2.distance) ∈ (buildLodObject opts gltfs).levels := by
  unfold buildLodObject
  exact foldl_addLevel_mem _ _ p hp

/-- C1, counterexample: with `lod: true` and the default three levels, the
lowest tier `ship_LOD2.glb` fetch succeeds, yet the call does not resolve
with a node — it rejects because tier 1 failed.  There is no progressive
path: `loadGLTF` is a single `Promise.all` over all tiers. -/
theorem c1_counterexample :
    shipEnv "ship_LOD2.glb" = .ok ⟨"s2"⟩ ∧
    loadGLTF "ship_LOD0.glb" { lod := true } shipEnv = .error "404" := by decide

/-- C1 as amended: with `lod: true`, `loadGLTF` resolves only when every
tier's fetch has succeeded; the resolved node then contains a level for
every tier, including the lowest-detail one. -/
theorem c1_amended (url : String) (opts : LoadOptions) (env : FetchEnv) (r : LoadResult)
    (hlod : opts.lod = true) (h : loadGLTF url opts env = .ok r) :
    (∀ f ∈ lodFilesOf url opts, ∃ g, env f = .ok g) ∧
    ∃ l gltfs, r = .lodModel l gltfs ∧
      (lodFilesOf url opts).map env = gltfs.map Except.ok ∧
      ∀ p ∈ List.zip gltfs opts.lodLevels, (p.1.scene, p.2.distance) ∈ l.levels := by
  rw [loadGLTF_lod url opts env hlod] at h
  cases hp : promiseAll ((lodFilesOf url opts).map env) with
  | error e => rw [hp] at h; cases h
  | ok gltfs =>
    rw [hp] at h
    simp only [Except.ok.injEq] at h
    have hmap := promiseAll_ok_map _ _ hp
    refine ⟨fun f hf => env_ok_of_map_ok hmap f hf,
      buildLodObject opts gltfs, gltfs, h.symm, hmap, ?_⟩
    intro p hp2
    exact buildLodObject_mem opts gltfs p hp2

/-- C1 witness: a concrete successful load over `carEnv`. -/
theorem c1_witness :
    (∀ f ∈ lodFilesOf "car_LOD0.glb" ({ lod := true } : LoadOptions), ∃ g, carEnv f = .ok g) ∧
    ∃ l gltfs,
      (LoadResult.lodModel { levels := [("c0", 0), ("c1", 10), ("c2", 20)] }
          [⟨"c0"⟩, ⟨"c1"⟩, ⟨"c2"⟩]) = .lodModel l gltfs ∧
      (lodFilesOf "car_LOD0.glb" ({ lod := true } : LoadOptions)).map carEnv =
        gltfs.map Except.ok ∧
      ∀ p ∈ List.zip gltfs ({ lod := true } : LoadOptions).lodLevels,
        (p.1.scene, p.2.distance) ∈ l.levels :=
  c1_amended "car_LOD0.glb" { lod := true } carEnv
    (.lodModel { levels := [("c0", 0), ("c1", 10), ("c2", 20)] } [⟨"c0"⟩, ⟨"c1"⟩, ⟨"c2"⟩])
    rfl (by decide)

/-- C2, counterexample: a fully successful `lod: true` load produces a
composite LOD node, yet the update manager registry that was empty before
the call is still empty after it — the node was never registered. -/
theorem c2_counterexample :
    (loadGLTFWithRegistry "car_LOD0.glb" { lod := true } carEnv []).2 = [] ∧
    (loadGLTFWithRegistry "car_LOD0.glb" { lod := true } carEnv []).1 =
      .ok (.lodModel { levels := [("c0", 0), ("c1", 10), ("c2", 20)] }
        [⟨"c0"⟩, ⟨"c1"⟩, ⟨"c2"⟩]) := by decide

/-- C2 as amended: `loadGLTF` never registers anything with the update
manager — the registry is returned exactly as it was, for every input. -/
theorem c2_amended (url : String) (opts : LoadOptions) (env : FetchEnv) (lods : List LOD) :
    (loadGLTFWithRegistry url opts env lods).2 = lods := rfl

/-- C3, counterexample: tier 1 of base `boat` fails while tiers 0 and 2
succeed, and the whole call rejects — there is no per-tier recovery, no
partial node of the successful tiers. -/
theorem c3_counterexample :
    boatEnv "boat_LOD0.glb" = .ok ⟨"b0"⟩ ∧ boatEnv "boat_LOD2.glb" = .ok ⟨"b2"⟩ ∧
    boatEnv "boat_LOD1.glb" = .error "410" ∧
    loadGLTF "boat_LOD0.glb" { lod := true } boatEnv = .error "410" := by decide

/-- C3 as amended: with `lod: true`, the failure of any single tier's fetch
— lowest or not — rejects the whole operation. -/
theorem c3_amended (url : String) (opts : LoadOptions) (env : FetchEnv) (i : Nat) (e : String)
    (hlod : opts.lod = true) (hi : i < opts.lodLevels.length)
    (hfail : env (tierFile (deriveBaseName url opts.lodBaseName) i) = .error e) :
    ∃ e', loadGLTF url opts env = .error e' := by
  have hmem : Except.error e ∈ (lodFilesOf url opts).map env := by
    have h1 := tierFile_mem_lodFilesOf url opts i hi
    have h2 := List.mem_map_of_mem env h1
    rw [hfail] at h2
    exact h2
  obtain ⟨e', he'⟩ := promiseAll_error_of_mem _ e hmem
  exact ⟨e', by rw [loadGLTF_lod url opts env hlod, he']⟩

/-- C3 witness: the failing middle tier of `boatEnv` rejects the call. -/
theorem c3_witness : ∃ e', loadGLTF "boat_LOD0.glb" { lod := true } boatEnv = .error e' :=
  c3_amended "boat_LOD0.glb" { lod := true } boatEnv 1 "410" rfl (by decide) (by decide)

/-- C4, counterexample: an empty level set is not rejected — the call
succeeds with a node containing no levels, even in an environment where
every fetch fails (so no fetch outcome was needed): no configuration error
is raised, synchronously or otherwise. -/
theorem c4_counterexample :
    envNone "ship_LOD0.glb" = .error "404" ∧
    loadGLTF "ship_LOD0.glb" { lod := true, lodLevels := [] } envNone =
      .ok (.lodModel {} []) := by decide

/-- C4 as amended: the loader performs no validation.  An empty level set
yields a successful load whose composite node has no levels, and base-name
derivation is total — a URL without the `_LOD<digits>.glb` suffix simply
falls back to the whole URL, so an undecidable base name cannot occur. -/
theorem c4_amended :
    (∀ (url : String) (opts : LoadOptions) (env : FetchEnv), opts.lod = true →
      opts.lodLevels = [] →
      loadGLTF url opts env =
        .ok (.lodModel
          { scale := opts.scale, position := opts.position, rotation := opts.rotation } [])) ∧
    stripLodSuffix "model.glb" = "model.glb" := by
  constructor
  · intro url opts env hlod hempty
    rw [loadGLTF_lod url opts env hlod]
    have hfiles : lodFilesOf url opts = [] := by
      simp [lodFilesOf, hempty]
    rw [hfiles]
    rfl
  · decide

/-- C4 witness: the empty-level-set load at a concrete URL and environment. -/
theorem c4_witness :
    loadGLTF "jet.glb" { lod := true, lodLevels := [] } envNone =
      .ok (.lodModel { scale := (1, 1, 1), position := (0, 0, 0), rotation := (0, 0, 0) } []) :=
  c4_amended.1 "jet.glb" { lod := true, lodLevels := [] } envNone rfl rfl

/-- C7: with `lod: true` (the only LOD path; the source has no progressive
mode, so this is the non-progressive contract), every tier file is fetched
and the call resolves exactly when all of them succeed, with every tier
inserted in ascending-distance order (the level list is sorted by
threshold); any single tier failure rejects the whole operation. -/
theorem c7_nonprogressive (url : String) (opts : LoadOptions) (env : FetchEnv)
    (hlod : opts.lod = true)
    (hsort : List.Pairwise (· ≤ ·) (opts.lodLevels.map LodLevel.distance)) :
    ((∀ f ∈ lodFilesOf url opts, ∃ g, env f = .ok g) →
      ∃ gltfs, loadGLTF url opts env = .ok (.lodModel (buildLodObject opts gltfs) gltfs) ∧
        (lodFilesOf url opts).map env = gltfs.map Except.ok ∧
        gltfs.length = opts.lodLevels.length ∧
        (buildLodObject opts gltfs).levels =
          (List.zip gltfs opts.lodLevels).map (fun p => (p.1.scene, p.2.distance)) ∧
        List.Pairwise (· ≤ ·) ((buildLodObject opts gltfs).levels.map Prod.snd)) ∧
    (∀ i, i < opts.lodLevels.length →
      (∃ e, env (tierFile (deriveBaseName url opts.lodBaseName) i) = .error e) →
      ∃ e', loadGLTF url opts env = .error e') := by
  constructor
  · intro hall
    have hall' : ∀ r ∈ (lodFilesOf url opts).map env, ∃ g, r = .ok g := by
      intro r hr
      obtain ⟨f, hf, rfl⟩ := List.mem_map.mp hr
      exact hall f hf
    obtain ⟨gltfs, hok, hmap⟩ := promiseAll_ok_exists _ hall'
    have hlen : gltfs.length = opts.lodLevels.length := by
      have h1 := congrArg List.length hmap
      simp only [List.length_map] at h1
      rw [lodFilesOf_length] at h1
      omega
    have hlev := buildLodObject_levels_eq opts gltfs hlen hsort
    have hsnd : (buildLodObject opts gltfs).levels.map Prod.snd =
        opts.lodLevels.map LodLevel.distance := by
      rw [hlev, List.map_map]
      have hz : (List.zip gltfs opts.lodLevels).map Prod.snd = opts.lodLevels :=
        List.map_snd_zip _ _ (le_of_eq hlen.symm)
      calc (List.zip gltfs opts.lodLevels).map
            (Prod.snd ∘ fun p : GLTF × LodLevel => (p.1.scene, p.2.distance))
          = ((List.zip gltfs opts.lodLevels).map Prod.snd).map LodLevel.distance := by
            rw [List.map_map]; rfl
        _ = opts.lodLevels.map LodLevel.distance := by rw [hz]
    refine ⟨gltfs, ?_, hmap, hlen, hlev, ?_⟩
    · rw [loadGLTF_lod url opts env hlod, hok]
    · rw [hsnd]
      exact hsort
  · intro i hi he
    obtain ⟨e, he⟩ := he
    exact c3_amended url opts env i e hlod hi he

/-- C7 witness: the fully successful concrete load over `carEnv`. -/
theorem c7_witness :
    ∃ gltfs, loadGLTF "car_LOD0.glb" ({ lod := true } : LoadOptions) carEnv =
        .ok (.lodModel (buildLodObject { lod := true } gltfs) gltfs) ∧
      (lodFilesOf "car_LOD0.glb" ({ lod := true } : LoadOptions)).map carEnv =
        gltfs.map Except.ok ∧
      gltfs.length = ({ lod := true } : LoadOptions).lodLevels.length ∧
      (buildLodObject { lod := true } gltfs).levels =
        (List.zip gltfs ({ lod := true } : LoadOptions).lodLevels).map
          (fun p => (p.1.scene, p.2.distance)) ∧
      List.Pairwise (· ≤ ·) ((buildLodObject { lod := true } gltfs).levels.map Prod.snd) := by
  refine (c7_nonprogressive "car_LOD0.glb" { lod := true } carEnv rfl (by decide)).1 ?_
  intro f hf
  have hfiles : lodFilesOf "car_LOD0.glb" ({ lod := true } : LoadOptions) =
      ["car_LOD0.glb", "car_LOD1.glb", "car_LOD2.glb"] := by decide
  rw [hfiles] at hf
  simp only [List.mem_cons, List.not_mem_nil, or_false] at hf
  rcases hf with rfl | rfl | rfl
  · exact ⟨⟨"c0"⟩, by decide⟩
  · exact ⟨⟨"c1"⟩, by decide⟩
  · exact ⟨⟨"c2"⟩, by decide⟩

/-! Lemmas about the tracker. -/

theorem ump_nil (cam : ℤ) : updateManagerUpdate cam [] = ([], [], none) := rfl

theorem ump_cons_ok (cam : ℤ) (n m : LOD) (s : List LodSwitch) (rest : List LOD)
    (h : updateStep cam n = .ok (m, s)) :
    updateManagerUpdate cam (n :: rest) =
      (m :: (updateManagerUpdate cam rest).1,
       s ++ (updateManagerUpdate cam rest).2.1,
       (updateManagerUpdate cam rest).2.2) := by
  simp only [updateManagerUpdate, h]

theorem ump_cons_error (cam : ℤ) (n : LOD) (e : TrackerError) (rest : List LOD)
    (h : updateStep cam n = .error e) :
    updateManagerUpdate cam (n :: rest) = (n :: rest, [], some e) := by
  simp only [updateManagerUpdate, h]

theorem lodUpdate_ok_of_wellformed (cam : ℤ) (n : LOD) (h : n.malformed = false) :
    ∃ m, lodUpdate cam n = .ok m := by
  rw [lodUpdate, h]
  split
  · simp at *
  · split
    · exact ⟨_, rfl⟩
    · exact ⟨_, rfl⟩

theorem lodUpdate_fields (cam : ℤ) (n m : LOD) (h : lodUpdate cam n = .ok m) :
    m.id = n.id ∧ m.levels = n.levels ∧ m.worldPos = n.worldPos ∧
    m.currentLevel = n.currentLevel ∧ m.malformed = n.malformed := by
  rw [lodUpdate] at h
  split at h
  · cases h
  · split at h
    · cases h
      exact ⟨rfl, rfl, rfl, rfl, rfl⟩
    · cases h
      exact ⟨rfl, rfl, rfl, rfl, rfl⟩

theorem lodUpdate_set_currentLevel (cam : ℤ) (n : LOD) (x : Option ℤ) :
    lodUpdate cam { n with currentLevel := x } =
      (lodUpdate cam n).map (fun m => { m with currentLevel := x }) := by
  by_cases hm : n.malformed = true
  · simp [lodUpdate, hm, Except.map]
  · have hm' : n.malformed = false := by simpa using hm
    by_cases hl : 1 < n.levels.length
    · simp [lodUpdate, hm', hl, viewerDistance, Except.map]
    · simp [lodUpdate, hm', hl, Except.map]

theorem lodUpdate_idem (cam : ℤ) (n m : LOD) (h : lodUpdate cam n = .ok m) :
    lodUpdate cam m = .ok m := by
  by_cases hm : n.malformed = true
  · rw [lodUpdate, if_pos hm] at h
    cases h
  · have hm' : n.malformed = false := by simpa using hm
    by_cases hl : 1 < n.levels.length
    · rw [lodUpdate, hm'] at h
      simp only [Bool.false_eq_true, if_false, if_pos hl] at h
      cases h
      simp [lodUpdate, hm', hl, viewerDistance]
    · rw [lodUpdate, hm'] at h
      simp only [Bool.false_eq_true, if_false, if_neg hl] at h
      cases h
      rw [lodUpdate, hm']
      simp [hl]

theorem updateStep_error_of_malformed (cam : ℤ) (n : LOD) (h : n.malformed = true) :
    updateStep cam n = .error .evaluationError := by
  simp [updateStep, lodUpdate, h]

theorem updateStep_ok_of_wellformed (cam : ℤ) (n : LOD) (h : n.malformed = false) :
    ∃ m s, updateStep cam n = .ok (m, s) := by
  obtain ⟨m, hm⟩ := lodUpdate_ok_of_wellformed cam n h
  rw [updateStep, hm]
  dsimp only
  split
  · exact ⟨_, _, rfl⟩
  · exact ⟨_, _, rfl⟩

theorem updateStep_idem (cam : ℤ) (n m : LOD) (s : List LodSwitch)
    (h : updateStep cam n = .ok (m, s)) : updateStep cam m = .ok (m, []) := by
  rw [updateStep] at h
  cases hu : lodUpdate cam n with
  | error e => rw [hu] at h; cases h
  | ok n1 =>
    rw [hu] at h
    dsimp only at h
    have hidem := lodUpdate_idem cam n n1 hu
    split at h
    next hne =>
      cases h
      have hset := lodUpdate_set_currentLevel cam n1
        (some ((lodGetCurrentLevel n1 : ℤ)))
      rw [hidem] at hset
      simp only [Except.map] at hset
      rw [updateStep, hset]
      dsimp only
      rw [if_neg (by simp [lodGetCurrentLevel])]
    next hne =>
      have h3 : n1 = m := by
        have h5 := congrArg (fun t => match t with
          | Except.ok (p : LOD × List LodSwitch) => p.1
          | Except.error _ => n1) h
        simpa using h5
      rw [← h3]
      have heq : some ((lodGetCurrentLevel n1 : ℤ)) = n.currentLevel := not_not.mp hne
      have hcl : n1.currentLevel = n.currentLevel :=
        (lodUpdate_fields cam n n1 hu).2.2.2.1
      rw [updateStep, hidem]
      dsimp only
      rw [if_neg (by rw [hcl, ← heq]; simp)]

theorem resetLevel_id (nid : Nat) (m : LOD) : (resetLevel nid m).id = m.id := by
  rw [resetLevel]
  split <;> rfl

theorem resetLevel_idem (nid : Nat) (m : LOD) :
    resetLevel nid (resetLevel nid m) = resetLevel nid m := by
  by_cases h : m.id = nid
  · simp [resetLevel, h]
  · simp [resetLevel, h]

theorem resetLevel_eq_self (nid : Nat) (m : LOD) (h : ¬ m.id = nid) :
    resetLevel nid m = m := by
  simp [resetLevel, h]

theorem map_resetLevel_eq_self (nid : Nat) (l : List LOD)
    (h : ∀ m ∈ l, ¬ m.id = nid) : l.map (resetLevel nid) = l := by
  induction l with
  | nil => rfl
  | cons a t ih =>
    rw [List.map_cons, resetLevel_eq_self nid a (h a (List.mem_cons_self _ _)),
      ih (fun m hm => h m (List.mem_cons_of_mem _ hm))]

/-- C5, counterexample: with a malformed node registered first, `update`
throws (the error escapes the loop) and the second, well-formed node — which
would have produced a switch notification — is never evaluated: its state is
untouched and no notification is emitted. -/
theorem c5_counterexample :
    updateManagerUpdate 15 [badNode, nodeB] =
      ([badNode, nodeB], [], some .evaluationError) := by decide

/-- C5 as amended: `updateManager.update` has no per-node isolation.  An
error raised while evaluating one registered node escapes the loop: nodes
before it are evaluated normally, but the raising node and every node after
it in registry order keep their state and produce no notifications. -/
theorem c5_amended (cam : ℤ) (pre post : List LOD) (bad : LOD)
    (hbad : bad.malformed = true) (hpre : ∀ n ∈ pre, n.malformed = false) :
    updateManagerUpdate cam (pre ++ bad :: post) =
      ((updateManagerUpdate cam pre).1 ++ bad :: post,
       (updateManagerUpdate cam pre).2.1, some .evaluationError) := by
  induction pre with
  | nil =>
    rw [List.nil_append,
      ump_cons_error cam bad _ post (updateStep_error_of_malformed cam bad hbad), ump_nil]
    rfl
  | cons q pre' ih =>
    have hq : q.malformed = false := hpre q (List.mem_cons_self _ _)
    obtain ⟨m, s, hstep⟩ := updateStep_ok_of_wellformed cam q hq
    have ih' := ih (fun x hx => hpre x (List.mem_cons_of_mem _ hx))
    rw [List.cons_append, ump_cons_ok cam q m s (pre' ++ bad :: post) hstep, ih',
      ump_cons_ok cam q m s pre' hstep]
    simp

/-- C5 witness: one good node, then the malformed one, then another good
node. -/
theorem c5_witness :
    updateManagerUpdate 15 ([nodeA] ++ badNode :: [nodeB]) =
      ((updateManagerUpdate 15 [nodeA]).1 ++ badNode :: [nodeB],
       (updateManagerUpdate 15 [nodeA]).2.1, some .evaluationError) :=
  c5_amended 15 [nodeA] [nodeB] badNode (by decide) (by decide)

/-- C6: distance-banded selection follows the greatest-threshold-≤-distance
rule.  For levels at thresholds [0, 10, 20]: distance 15 selects level 1,
distance 25 selects level 2, distance 5 selects level 0; and whenever the
viewer is closer than every threshold, the first (highest-detail) level is
the active one. -/
theorem c6_selection_rule :
    (∀ (n : LOD) (cam : ℤ), n.malformed = false →
      n.levels.map Prod.snd = [0, 10, 20] →
        ((viewerDistance cam n = 15 →
            ∃ m, lodUpdate cam n = .ok m ∧ lodGetCurrentLevel m = 1) ∧
         (viewerDistance cam n = 25 →
            ∃ m, lodUpdate cam n = .ok m ∧ lodGetCurrentLevel m = 2) ∧
         (viewerDistance cam n = 5 →
            ∃ m, lodUpdate cam n = .ok m ∧ lodGetCurrentLevel m = 0))) ∧
    (∀ (n : LOD) (cam : ℤ), n.malformed = false → 1 < n.levels.length →
      (∀ t ∈ n.levels.map Prod.snd, viewerDistance cam n < t) →
      ∃ m, lodUpdate cam n = .ok m ∧ lodGetCurrentLevel m = 0) := by
  constructor
  · intro n cam hmal hmap
    have hlen : 1 < n.levels.length := by
      have h3 := congrArg List.length hmap
      simp at h3
      omega
    have hup : lodUpdate cam n =
        .ok { n with internalLevel :=
          selectLevel (n.levels.map Prod.snd) (viewerDistance cam n) } := by
      simp [lodUpdate, hmal, hlen]
    refine ⟨fun hd => ⟨_, hup, ?_⟩, fun hd => ⟨_, hup, ?_⟩, fun hd => ⟨_, hup, ?_⟩⟩ <;>
      · show selectLevel (n.levels.map Prod.snd) (viewerDistance cam n) = _
        rw [hmap, hd]
        decide
  · intro n cam hmal hlen hall
    have hup : lodUpdate cam n =
        .ok { n with internalLevel :=
          selectLevel (n.levels.map Prod.snd) (viewerDistance cam n) } := by
      simp [lodUpdate, hmal, hlen]
    refine ⟨_, hup, ?_⟩
    show selectLevel (n.levels.map Prod.snd) (viewerDistance cam n) = 0
    rw [selectLevel]
    cases hd : (n.levels.map Prod.snd).drop 1 with
    | nil => simp [hd]
    | cons t ts =>
      have ht : t ∈ n.levels.map Prod.snd := by
        have h5 : t ∈ (n.levels.map Prod.snd).drop 1 := by
          rw [hd]; exact List.mem_cons_self _ _
        exact List.mem_of_mem_drop h5
      have hlt : ¬ t ≤ viewerDistance cam n := not_le.mpr (hall t ht)
      simp [List.takeWhile_cons, hlt]

/-- C6 witness: `nodeA` (thresholds [0, 10, 20], world position 0) at viewer
distances 15, 25 and 5, and `farNode` (thresholds [200, 300]) at distance
105. -/
theorem c6_witness :
    (∃ m, lodUpdate 15 nodeA = .ok m ∧ lodGetCurrentLevel m = 1) ∧
    (∃ m, lodUpdate 25 nodeA = .ok m ∧ lodGetCurrentLevel m = 2) ∧
    (∃ m, lodUpdate 5 nodeA = .ok m ∧ lodGetCurrentLevel m = 0) ∧
    (∃ m, lodUpdate 105 farNode = .ok m ∧ lodGetCurrentLevel m = 0) :=
  ⟨(c6_selection_rule.1 nodeA 15 (by decide) (by decide)).1 (by decide),
   (c6_selection_rule.1 nodeA 25 (by decide) (by decide)).2.1 (by decide),
   (c6_selection_rule.1 nodeA 5 (by decide) (by decide)).2.2 (by decide),
   c6_selection_rule.2 farNode 105 (by decide) (by decide) (by decide)⟩

/-- C8: `update` is idempotent for a fixed camera and registry — if a first
call succeeds, an immediate second call emits no notification and leaves
every node unchanged. -/
theorem c8_update_idempotent (cam : ℤ) (lods lods2 : List LOD) (sw : List LodSwitch)
    (h : updateManagerUpdate cam lods = (lods2, sw, none)) :
    updateManagerUpdate cam lods2 = (lods2, [], none) := by
  induction lods generalizing lods2 sw with
  | nil =>
    rw [ump_nil] at h
    have h1 : lods2 = [] := (congrArg (fun t => t.1) h).symm
    rw [h1]
    exact ump_nil cam
  | cons q rest ih =>
    cases hs : updateStep cam q with
    | error e =>
      rw [ump_cons_error cam q e rest hs] at h
      exfalso
      have h2 := congrArg (fun t => t.2.2) h
      simp at h2
    | ok ms =>
      obtain ⟨m, s⟩ := ms
      rcases hu : updateManagerUpdate cam rest with ⟨l1, s1, e1⟩
      rw [ump_cons_ok cam q m s rest hs, hu] at h
      have h1 : m :: l1 = lods2 := congrArg (fun t => t.1) h
      have h2 : e1 = none := by
        have h4 := congrArg (fun t => t.2.2) h
        simpa using h4
      subst h2
      have ihres := ih l1 s1 hu
      rw [← h1, ump_cons_ok cam m m [] l1 (updateStep_idem cam q m s hs), ihres]
      rfl

/-- C8 witness: `nodeA` stabilizes after one update at distance 15; the
second update of the stabilized registry emits nothing and changes
nothing. -/
theorem c8_witness : updateManagerUpdate 15 [nodeA1] = ([nodeA1], [], none) :=
  c8_update_idempotent 15 [nodeA] [nodeA1] [⟨7, none, 1⟩] (by decide)

/-- C9: registry membership is idempotent — double registration keeps
exactly one entry for the node, and unregistering an unregistered node is an
error-free no-op. -/
theorem c9_registry_idempotent (lods : List LOD) (n : LOD) :
    updateManagerAdd (updateManagerAdd lods n) n = updateManagerAdd lods n ∧
    (lods.countP (fun m => decide (m.id = n.id)) = 0 →
      (updateManagerAdd (updateManagerAdd lods n) n).countP
          (fun m => decide (m.id = n.id)) = 1 ∧
      updateManagerRemove lods n = lods) := by
  have hcomp : (fun m : LOD => decide (m.id = n.id)) ∘ resetLevel n.id =
      fun m : LOD => decide (m.id = n.id) := by
    funext m
    simp [Function.comp, resetLevel_id]
  have hadd : updateManagerAdd (updateManagerAdd lods n) n = updateManagerAdd lods n := by
    by_cases hmem : lods.any (fun m => decide (m.id = n.id)) = true
    · have h1 : updateManagerAdd lods n = lods.map (resetLevel n.id) := by
        rw [updateManagerAdd, if_pos hmem]
      have hff : resetLevel n.id ∘ resetLevel n.id = resetLevel n.id := by
        funext m
        exact resetLevel_idem n.id m
      rw [h1, updateManagerAdd,
        if_pos (show ((lods.map (resetLevel n.id)).any fun m => decide (m.id = n.id)) = true by
          rw [List.any_map, hcomp]; exact hmem),
        List.map_map, hff]
    · have hall : ∀ m ∈ lods, ¬ m.id = n.id := by
        have hf : lods.any (fun m => decide (m.id = n.id)) = false := by
          simpa using hmem
        intro m hm
        have h5 := List.any_eq_false.mp hf m hm
        simpa using h5
      have h1 : updateManagerAdd lods n = lods ++ [{ n with currentLevel := some (-1) }] := by
        rw [updateManagerAdd, if_neg hmem]
      rw [h1, updateManagerAdd, if_pos (by simp [List.any_append]), List.map_append,
        map_resetLevel_eq_self n.id lods hall]
      simp [resetLevel]
  refine ⟨hadd, fun h0 => ⟨?_, ?_⟩⟩
  · have hall : ∀ m ∈ lods, ¬ m.id = n.id := by
      intro m hm
      have h5 := List.countP_eq_zero.mp h0 m hm
      simpa using h5
    have hf : lods.any (fun m => decide (m.id = n.id)) = false :=
      List.any_eq_false.mpr (fun m hm => by simpa using hall m hm)
    rw [hadd, updateManagerAdd, if_neg (by simp [hf]), List.countP_append, h0,
      List.countP_cons]
    simp [List.countP_nil]
  · exact List.filter_eq_self.mpr (fun m hm => by
      simpa using fun h5 => absurd h5 (by
        have h6 := List.countP_eq_zero.mp h0 m hm
        simpa using h6))

/-- C9 witness: registering `nodeB` twice in an empty registry, and removing
it from an empty registry. -/
theorem c9_witness :
    updateManagerAdd (updateManagerAdd [] nodeB) nodeB = updateManagerAdd [] nodeB ∧
    ((updateManagerAdd (updateManagerAdd [] nodeB) nodeB).countP
        (fun m => decide (m.id = nodeB.id)) = 1 ∧
      updateManagerRemove [] nodeB = []) :=
  ⟨(c9_registry_idempotent [] nodeB).1, (c9_registry_idempotent [] nodeB).2 (by decide)⟩

/-- C10: re-registering an already-registered node unconditionally resets
its `userData.currentLevel` to −1, so the next `update` emits a transition
notification for it even though the geometrically selected level is exactly
the one that was already active (the node's final state is unchanged). -/
theorem c10_readd_renotifies (cam : ℤ) (n n2 : LOD) (sw : List LodSwitch)
    (h : updateManagerUpdate cam [n] = ([n2], sw, none)) :
    updateManagerAdd [n2] n2 = [{ n2 with currentLevel := some (-1) }] ∧
    updateManagerUpdate cam [{ n2 with currentLevel := some (-1) }] =
      ([n2], [⟨n2.id, some (-1), lodGetCurrentLevel n2⟩], none) := by
  rcases hs : updateStep cam n with e | ⟨m, s⟩
  · rw [ump_cons_error cam n e [] hs] at h
    exfalso
    have h2 := congrArg (fun t => t.2.2) h
    simp at h2
  · rw [ump_cons_ok cam n m s [] hs, ump_nil] at h
    have hm : m = n2 := by
      have h2 := congrArg (fun t => t.1) h
      simpa using h2
    subst hm
    have hstep2 := updateStep_idem cam n m s hs
    have hparts : lodUpdate cam m = .ok m ∧
        m.currentLevel = some ((lodGetCurrentLevel m : ℤ)) := by
      rw [updateStep] at hstep2
      cases hu : lodUpdate cam m with
      | error e => rw [hu] at hstep2; cases hstep2
      | ok n1 =>
        rw [hu] at hstep2
        dsimp only at hstep2
        split at hstep2
        · exfalso
          have h5 := congrArg (fun t => match t with
            | Except.ok (p : LOD × List LodSwitch) => p.2
            | Except.error _ => ([] : List LodSwitch)) hstep2
          simp at h5
        next hcond =>
          have h5 : n1 = m := by
            have h6 := congrArg (fun t => match t with
              | Except.ok (p : LOD × List LodSwitch) => p.1
              | Except.error _ => n1) hstep2
            simpa using h6
          subst h5
          exact ⟨rfl, (not_not.mp hcond).symm⟩
    obtain ⟨hu, hcl⟩ := hparts
    constructor
    · rw [updateManagerAdd, if_pos (by simp)]
      simp [resetLevel]
    · have hu' : lodUpdate cam { m with currentLevel := some (-1) } =
          .ok { m with currentLevel := some (-1) } := by
        rw [lodUpdate_set_currentLevel cam m (some (-1)), hu]
        rfl
      have hstep' : updateStep cam { m with currentLevel := some (-1) } =
          .ok ({ m with currentLevel := some ((lodGetCurrentLevel m : ℤ)) },
               [⟨m.id, some (-1), lodGetCurrentLevel m⟩]) := by
        rw [updateStep, hu']
        dsimp only
        rw [if_pos ?hne]
        case hne =>
          simp only [Ne, Option.some.injEq, lodGetCurrentLevel]
          intro hk
          omega
        rfl
      have hcollapse : ({ m with currentLevel := some ((lodGetCurrentLevel m : ℤ)) } : LOD) = m := by
        rw [← hcl]
      rw [ump_cons_ok cam _ _ _ [] hstep', ump_nil, hcollapse]
      rfl

/-- C10 witness: `nodeA` stabilized at level 1 (`nodeA1`); re-adding it and
updating again at the same distance re-emits a switch to the already-active
level 1. -/
theorem c10_witness :
    updateManagerAdd [nodeA1] nodeA1 = [{ nodeA1 with currentLevel := some (-1) }] ∧
    updateManagerUpdate 15 [{ nodeA1 with currentLevel := some (-1) }] =
      ([nodeA1], [⟨nodeA1.id, some (-1), lodGetCurrentLevel nodeA1⟩], none) :=
  c10_readd_renotifies 15 nodeA nodeA1 [⟨7, none, 1⟩] (by decide)

end FlowJS
